import Mathlib

/-!
Shallow embedding of the graph-backed social data layer of the
CS157C-Team3 backend (`app/services/neo4j_service.py`,
`app/routers/profile.py`, `app/models/user.py`).

The Neo4j database is embedded as an explicit `Store` state: User nodes,
FOLLOWS edges (pairs of user ids), Post nodes and POSTED edges (author id,
post id).  Each service method becomes a pure function over `Store`;
methods that only read return plain values, methods that write return the
new `Store`, and methods that can raise return `Except StoreFailure`.
Cypher `MATCH` clauses become list filters over the node lists, `MERGE`
becomes add-if-absent, `DELETE` becomes filter-out, and `ORDER BY` becomes
an insertion sort by the ordered key.
-/

/-- Embeds the `UserProfile` pydantic model of `neo4j_service.py`
(fields `id`, `name`, `username`, `email`, `bio`, `avatar`, with the same
defaults). -/
structure UserProfile where
  id : String
  name : String
  username : String
  email : String
  bio : String := ""
  avatar : String := "avatar_1"
deriving DecidableEq, Repr

/-- A Post node: `id`, `content`, `createdAt` (a sortable timestamp
string), as read by `get_feed_posts`. -/
structure Post where
  id : String
  content : String
  createdAt : String
deriving DecidableEq, Repr

/-- Embeds the `FeedPostAuthor` pydantic model: the minimal author
projection carried by a feed post. -/
structure FeedPostAuthor where
  id : String
  name : String
  username : String
deriving DecidableEq, Repr

/-- Embeds the `FeedPost` pydantic model. -/
structure FeedPost where
  id : String
  content : String
  createdAt : String
  author : FeedPostAuthor
deriving DecidableEq, Repr

/-- The graph-store state behind the service: User nodes, FOLLOWS edges
(follower id, followed id), Post nodes, POSTED edges (author id, post id). -/
structure Store where
  users : List UserProfile
  follows : List (String × String)
  posts : List Post
  posted : List (String × String)
deriving DecidableEq, Repr

/-- Failure kinds raised by the service layer.  `notFound` embeds the
`ValueError("User not found")` of `update_user`; `typeErrorMissingQueryArg`
embeds the `TypeError` Python raises when `AsyncSession.run` is called
without its required positional `query` argument, which is exactly what
`get_mutual_connections` does. -/
inductive StoreFailure where
  | notFound
  | typeErrorMissingQueryArg
deriving DecidableEq, Repr

/-- Embeds `create_user`: the Cypher `CREATE (u:User {...})` appends a new
User node unconditionally. -/
def create_user (profile : UserProfile) (s : Store) : Store :=
  { s with users := s.users ++ [profile] }

/-- Embeds `get_user_by_id`: `MATCH (u:User {id: $user_id}) RETURN u`
followed by `result.single()`, which yields the first matching record or
`None`.  The Python then rebuilds a `UserProfile` from the node's fields
(with `.get` defaults for `bio`/`avatar`); since every embedded node
carries all fields, that rebuild is the identity. -/
def get_user_by_id (user_id : String) (s : Store) : Option UserProfile :=
  s.users.find? (fun u => u.id == user_id)

/-- Embeds Cypher's `toLower`: character-wise lowercasing, stated on the
string's character list (`String.toLower` performs the same
character-wise `Char.toLower`, but its `mapAux` recursion does not reduce
in the kernel, so witnesses could not evaluate it). -/
def toLower (s : String) : String :=
  String.mk (s.data.map Char.toLower)

/-- Embeds `is_username_available`: counts User nodes whose username
matches case-insensitively (`toLower(u.username) = toLower($username)`)
and reports whether the count is zero. -/
def is_username_available (username : String) (s : Store) : Bool :=
  s.users.countP (fun u => toLower u.username == toLower username) == 0

/-- Embeds `is_username_available_for_user`: the same count but excluding
nodes with `u.id = $current_user_id`. -/
def is_username_available_for_user (username current_user_id : String)
    (s : Store) : Bool :=
  s.users.countP
    (fun u => toLower u.username == toLower username && u.id != current_user_id) == 0

/-- The `SET` clause of `update_user` applied to one node: a node matching
`user_id` gets `name`, `username`, `bio`, `avatar` overwritten; any other
node is untouched. -/
def updateFields (user_id name username bio avatar : String)
    (u : UserProfile) : UserProfile :=
  if u.id == user_id then
    { u with name := name, username := username, bio := bio, avatar := avatar }
  else u

/-- Embeds `update_user`: `MATCH (u:User {id: $user_id}) SET ... RETURN u`
updates every matching node, then `result.single()` takes the first
returned (post-update) record; if there is none, the Python raises
`ValueError("User not found")`.  Returns the outcome together with the
post-call store. -/
def update_user (user_id name username bio avatar : String) (s : Store) :
    Except StoreFailure UserProfile × Store :=
  let users' := s.users.map (updateFields user_id name username bio avatar)
  match users'.find? (fun u => u.id == user_id) with
  | none => (Except.error StoreFailure.notFound, { s with users := users' })
  | some u => (Except.ok u, { s with users := users' })

/-- Whether a User node with the given id exists (the `MATCH (u:User
{id: ...})` endpoint test used by `follow_user`/`unfollow_user`). -/
def userExists (user_id : String) (s : Store) : Bool :=
  s.users.any (fun u => u.id == user_id)

/-- Embeds `follow_user`: `MATCH (u {id:$user_id}), (t {id:$target_id})
MERGE (u)-[:FOLLOWS]->(t)`.  When either endpoint id matches no node the
`MATCH` produces no rows and nothing happens; otherwise `MERGE` adds the
edge only if it is absent. -/
def follow_user (user_id target_id : String) (s : Store) : Store :=
  if userExists user_id s && userExists target_id s then
    if s.follows.contains (user_id, target_id) then s
    else { s with follows := s.follows ++ [(user_id, target_id)] }
  else s

/-- Embeds `unfollow_user`: `MATCH (u {id:$user_id})-[f:FOLLOWS]->(t
{id:$target_id}) DELETE f` deletes every matching edge; with no match
(missing endpoint or no edge) it is a no-op. -/
def unfollow_user (user_id target_id : String) (s : Store) : Store :=
  if userExists user_id s && userExists target_id s then
    { s with follows := s.follows.filter (fun e => e != (user_id, target_id)) }
  else s

/-- Embeds `get_following`: `MATCH (u {id:$user_id})-[:FOLLOWS]->(f)
RETURN f` — the User nodes reached by a FOLLOWS edge leaving `user_id`. -/
def get_following (user_id : String) (s : Store) : List UserProfile :=
  s.users.filter (fun f => s.follows.contains (user_id, f.id))

/-- Embeds `get_followers`: `MATCH (f)-[:FOLLOWS]->(u {id:$user_id})
RETURN f`. -/
def get_followers (user_id : String) (s : Store) : List UserProfile :=
  s.users.filter (fun f => s.follows.contains (f.id, user_id))

/-- Embeds `get_mutual_connections` as the source actually executes: the
method builds a Cypher query string but then calls
`self._session.run(user1=user1, user2=user2)` WITHOUT passing that query,
so Python raises `TypeError` (missing required positional argument
`query`) before any query runs, and the records loop is never reached. -/
def get_mutual_connections (_user1 _user2 : String) (_s : Store) :
    Except StoreFailure (List UserProfile) :=
  Except.error StoreFailure.typeErrorMissingQueryArg

/-- The Cypher query that `get_mutual_connections` builds but never runs:
`MATCH (u1 {id:$user1})-[:FOLLOWS]->(m), (u2 {id:$user2})-[:FOLLOWS]->(m)
RETURN m` — the User nodes followed by both `user1` and `user2`. -/
def mutual_connections_query (user1 user2 : String) (s : Store) :
    List UserProfile :=
  s.users.filter
    (fun m => s.follows.contains (user1, m.id) && s.follows.contains (user2, m.id))

/-- The `ORDER BY u.username` key of `get_all_users_except`. -/
def usernameLE (a b : UserProfile) : Prop :=
  a.username ≤ b.username

instance : DecidableRel usernameLE :=
  fun a b => inferInstanceAs (Decidable (a.username ≤ b.username))

instance : IsTotal UserProfile usernameLE :=
  ⟨fun a b => le_total a.username b.username⟩

instance : IsTrans UserProfile usernameLE :=
  ⟨fun _ _ _ hab hbc => le_trans hab hbc⟩

/-- Embeds `get_all_users_except`: `MATCH (u:User) WHERE u.id <> $user_id
RETURN u ORDER BY u.username`. -/
def get_all_users_except (user_id : String) (s : Store) : List UserProfile :=
  List.insertionSort usernameLE (s.users.filter (fun u => u.id != user_id))

/-- The rows produced by the feed query `MATCH (me {id:$userId})
-[:FOLLOWS]->(followed)-[:POSTED]->(post) RETURN post, followed`: one
(post, followed) pair per FOLLOWS-then-POSTED path. -/
def feedRows (user_id : String) (s : Store) : List (Post × UserProfile) :=
  (s.users.filter (fun f => s.follows.contains (user_id, f.id))).flatMap
    (fun f =>
      (s.posts.filter (fun p => s.posted.contains (f.id, p.id))).map
        (fun p => (p, f)))

/-- The `ORDER BY post.createdAt DESC` key of the feed query. -/
def createdAtDesc (a b : Post × UserProfile) : Prop :=
  b.1.createdAt ≤ a.1.createdAt

instance : DecidableRel createdAtDesc :=
  fun a b => inferInstanceAs (Decidable (b.1.createdAt ≤ a.1.createdAt))

instance : IsTotal (Post × UserProfile) createdAtDesc :=
  ⟨fun a b => le_total b.1.createdAt a.1.createdAt⟩

instance : IsTrans (Post × UserProfile) createdAtDesc :=
  ⟨fun _ _ _ hab hbc => le_trans hbc hab⟩

/-- Embeds `get_feed_posts`: the feed rows ordered by `createdAt`
descending, each projected to a `FeedPost` with the minimal author
projection `{id, name, username}`. -/
def get_feed_posts (user_id : String) (s : Store) : List FeedPost :=
  (List.insertionSort createdAtDesc (feedRows user_id s)).map
    (fun r =>
      { id := r.1.id, content := r.1.content, createdAt := r.1.createdAt,
        author := { id := r.2.id, name := r.2.name, username := r.2.username } })

/-- The `FeedPost` built for one (post, followed) row of the feed query:
the post's fields plus the minimal author projection. -/
def feedItem (p : Post) (f : UserProfile) : FeedPost :=
  { id := p.id, content := p.content, createdAt := p.createdAt,
    author := { id := f.id, name := f.name, username := f.username } }

/-- Embeds the `ProfileResponse` pydantic model of `app/models/user.py`:
its fields are exactly `id`, `name`, `username`, `email`, `bio` — there is
no `avatar` field. -/
structure ProfileResponse where
  id : String
  name : String
  username : String
  email : String
  bio : String := ""
deriving DecidableEq, Repr

/-- Outcome of the profile endpoint: a 200 body or an HTTP error with a
status code and a detail string (FastAPI's `HTTPException`). -/
inductive ProfileHttpResult where
  | ok (body : ProfileResponse)
  | httpError (statusCode : Nat) (detail : String)
deriving DecidableEq, Repr

/-- Embeds the `GET /api/profile/{user_id}` handler of
`app/routers/profile.py`.  Its input is the outcome of the
`neo4j_service.get_user_by_id` call: an exception (whose message is the
`String`), or the optional profile.  An exception becomes HTTP 500 with
the fixed detail `"Failed to retrieve profile"`; an absent profile
becomes HTTP 404 `"Profile not found"`; a present profile is projected
onto `ProfileResponse` (no `avatar`). -/
def get_profile (outcome : Except String (Option UserProfile)) :
    ProfileHttpResult :=
  match outcome with
  | Except.error _ => ProfileHttpResult.httpError 500 "Failed to retrieve profile"
  | Except.ok none => ProfileHttpResult.httpError 404 "Profile not found"
  | Except.ok (some profile) =>
      ProfileHttpResult.ok
        { id := profile.id, name := profile.name, username := profile.username,
          email := profile.email, bio := profile.bio }

/-- The empty store: no users, no edges, no posts. -/
def emptyStore : Store :=
  { users := [], follows := [], posts := [], posted := [] }

/-- Concrete user for witnesses and counterexamples. -/
def userA : UserProfile :=
  { id := "a", name := "Alice", username := "alice", email := "alice@mail" }

/-- Concrete user for witnesses and counterexamples. -/
def userB : UserProfile :=
  { id := "b", name := "Bob", username := "bob", email := "bob@mail" }

/-- Concrete user for witnesses and counterexamples. -/
def userC : UserProfile :=
  { id := "c", name := "Carol", username := "carol", email := "carol@mail" }

/-- A concrete store with three users where both `"a"` and `"b"` follow
`"c"`, so the intended mutual-connections result is nonempty. -/
def demoStore : Store :=
  { users := [userA, userB, userC],
    follows := [("a", "c"), ("b", "c")],
    posts := [],
    posted := [] }

theorem contains_true_iff {α : Type} [BEq α] [LawfulBEq α]
    (l : List α) (a : α) : l.contains a = true ↔ a ∈ l :=
  List.elem_iff

theorem updateFields_id (user_id name username bio avatar : String)
    (u : UserProfile) :
    (updateFields user_id name username bio avatar u).id = u.id := by
  rw [updateFields]; split <;> rfl

theorem updateFields_email (user_id name username bio avatar : String)
    (u : UserProfile) :
    (updateFields user_id name username bio avatar u).email = u.email := by
  rw [updateFields]; split <;> rfl

theorem updateFields_noop (user_id name username bio avatar : String)
    (u : UserProfile) (h : u.id ≠ user_id) :
    updateFields user_id name username bio avatar u = u := by
  rw [updateFields, if_neg]
  simpa using h

theorem update_user_snd (user_id name username bio avatar : String)
    (s : Store) :
    (update_user user_id name username bio avatar s).2
      = { s with
          users := s.users.map (updateFields user_id name username bio avatar) } := by
  rw [update_user]
  cases hf : (s.users.map (updateFields user_id name username bio avatar)).find?
      (fun u => u.id == user_id) <;> simp [hf]

/-- C10: at `GET /api/profile/{user_id}`, an absent profile yields HTTP
404 "Profile not found"; a service exception yields HTTP 500 "Failed to
retrieve profile" whatever the underlying message (the detail is never
exposed); and a success body is exactly the `{id, name, username, email,
bio}` projection — two stored profiles differing only in `avatar` produce
identical responses, so the stored avatar is omitted. -/
theorem get_profile_responses :
    (get_profile (Except.ok none)
      = ProfileHttpResult.httpError 404 "Profile not found")
    ∧ (∀ e : String, get_profile (Except.error e)
      = ProfileHttpResult.httpError 500 "Failed to retrieve profile")
    ∧ (∀ p : UserProfile, get_profile (Except.ok (some p))
      = ProfileHttpResult.ok
          { id := p.id, name := p.name, username := p.username,
            email := p.email, bio := p.bio })
    ∧ (∀ (p : UserProfile) (a : String),
      get_profile (Except.ok (some { p with avatar := a }))
        = get_profile (Except.ok (some p))) :=
  ⟨rfl, fun _ => rfl, fun _ => rfl, fun _ _ => rfl⟩

/-- C9: for every population, `get_all_users_except u` contains exactly
the users whose id differs from `u` (in particular never `u`'s own node),
and the result is pairwise ascending by username. -/
theorem get_all_users_except_spec :
    ∀ (user_id : String) (s : Store),
      (∀ x : UserProfile,
        x ∈ get_all_users_except user_id s ↔ x ∈ s.users ∧ x.id ≠ user_id)
      ∧ (get_all_users_except user_id s).Pairwise
          (fun a b => a.username ≤ b.username) := by
  intro user_id s
  constructor
  · intro x
    rw [get_all_users_except,
      (List.perm_insertionSort usernameLE _).mem_iff, List.mem_filter,
      bne_iff_ne]
  · exact List.sorted_insertionSort usernameLE _

/-- C5: when either endpoint id matches no User node, `follow_user` is a
silent no-op: it returns normally (the embedding is a total function into
`Store`) and the store is unchanged — no edge or node is created. -/
theorem follow_user_missing_endpoint_noop :
    ∀ (s : Store) (user_id target_id : String),
      ((∀ u ∈ s.users, u.id ≠ user_id) ∨ (∀ u ∈ s.users, u.id ≠ target_id)) →
      follow_user user_id target_id s = s := by
  intro s user_id target_id h
  have hx : (userExists user_id s && userExists target_id s) = false := by
    rcases h with h | h
    · have : userExists user_id s = false := by
        rw [← Bool.not_eq_true, userExists, List.any_eq_true]
        rintro ⟨u, hu, hbeq⟩
        exact h u hu (by simpa using hbeq)
      simp [this]
    · have : userExists target_id s = false := by
        rw [← Bool.not_eq_true, userExists, List.any_eq_true]
        rintro ⟨u, hu, hbeq⟩
        exact h u hu (by simpa using hbeq)
      simp [this]
  rw [follow_user, hx]
  simp

/-- Witness for C5: following from the missing id "x" on the demo store
changes nothing. -/
theorem follow_user_missing_endpoint_noop_witness :
    follow_user "x" "b" demoStore = demoStore :=
  follow_user_missing_endpoint_noop demoStore "x" "b" (Or.inl (by decide))

/-- C6: `is_username_available U` is true exactly when no stored user's
username equals `U` under case-folding; and immediately after
`create_user` with username `U` it is false.  ("True before that
creation" is the left-to-right reading of the same equivalence: it holds
exactly when no user already held `U`, which is `create_user`'s
documented precondition.) -/
theorem username_availability_spec :
    ∀ (username : String) (s : Store),
      (is_username_available username s = true
        ↔ ∀ u ∈ s.users, toLower u.username ≠ toLower username)
      ∧ ∀ profile : UserProfile,
          is_username_available profile.username (create_user profile s)
            = false := by
  intro username s
  constructor
  · simp [is_username_available, List.countP_eq_zero]
  · intro profile
    have hcount : (s.users ++ [profile]).countP
        (fun u => toLower u.username == toLower profile.username)
        = s.users.countP
            (fun u => toLower u.username == toLower profile.username) + 1 := by
      simp [List.countP_append, List.countP_cons]
    simp [is_username_available, create_user, hcount]

/-- C1: `get_mutual_connections` never returns the intersection of the
two following-sets: the source calls `session.run` without the query it
built, so the call raises `TypeError` even on `demoStore`, where the
query it meant to run (embedded as `mutual_connections_query`) returns
the nonempty intersection `[userC]`; that intended query does compute
exactly the intersection of `get_following` sets. -/
theorem mutual_connections_never_queried :
    get_mutual_connections "a" "b" demoStore
      = Except.error StoreFailure.typeErrorMissingQueryArg
    ∧ mutual_connections_query "a" "b" demoStore = [userC]
    ∧ (∀ (user1 user2 : String) (s : Store) (x : UserProfile),
        x ∈ mutual_connections_query user1 user2 s
          ↔ x ∈ get_following user1 s ∧ x ∈ get_following user2 s) := by
  refine ⟨rfl, by decide, ?_⟩
  intro user1 user2 s x
  simp only [mutual_connections_query, get_following, List.mem_filter,
    Bool.and_eq_true]
  tauto

/-- C2: `update_user` signals `notFound` exactly when no User node has
the target id, and the store is unchanged on that failure.  The claim's
closing clause — every other operation treats absence as a benign
empty/absent result — fails at `get_mutual_connections`: on the empty
store (both queried users absent) it raises a `TypeError` (the missing
`query` argument) instead of returning the empty list, while
`get_user_by_id` and `get_following` are indeed benign there. -/
theorem update_user_notFound_iff_absent :
    (∀ (user_id name username bio avatar : String) (s : Store),
      ((update_user user_id name username bio avatar s).1
          = Except.error StoreFailure.notFound
        ↔ ∀ u ∈ s.users, u.id ≠ user_id)
      ∧ ((∀ u ∈ s.users, u.id ≠ user_id) →
          (update_user user_id name username bio avatar s).2 = s))
    ∧ get_mutual_connections "a" "b" emptyStore
        = Except.error StoreFailure.typeErrorMissingQueryArg
    ∧ get_user_by_id "a" emptyStore = none
    ∧ get_following "a" emptyStore = [] := by
  refine ⟨?_, rfl, rfl, rfl⟩
  intro user_id name username bio avatar s
  have hchar :
      ((s.users.map (updateFields user_id name username bio avatar)).find?
          (fun u => u.id == user_id) = none)
        ↔ ∀ u ∈ s.users, u.id ≠ user_id := by
    rw [List.find?_eq_none]
    constructor
    · intro h u hu heq
      exact h _ (List.mem_map.mpr ⟨u, hu, rfl⟩)
        (by simp [updateFields_id, heq])
    · intro h x hx
      rcases List.mem_map.mp hx with ⟨u, hu, rfl⟩
      simp only [updateFields_id, ne_eq, beq_iff_eq]
      exact h u hu
  constructor
  · rw [← hchar]
    cases hf : (s.users.map (updateFields user_id name username bio avatar)).find?
        (fun u => u.id == user_id) <;> simp [update_user, hf]
  · intro h
    have hmap : s.users.map (updateFields user_id name username bio avatar)
        = s.users := by
      have := List.map_congr_left
        (fun u hu => updateFields_noop user_id name username bio avatar u
          (h u hu))
      simpa using this
    have h2 := update_user_snd user_id name username bio avatar s
    rw [hmap] at h2
    exact h2

/-- C7: with case-folded usernames unique (the layer's data-model
invariant), `is_username_available_for_user U id` is true when the user
with that id owns username `U` (self-exclusion), and for an id that owns
no case-folded match of `U` it coincides with `is_username_available U`. -/
theorem username_available_for_user_spec :
    ∀ (username current_user_id : String) (s : Store),
      ((∃ u ∈ s.users, u.id = current_user_id ∧ u.username = username) →
        (∀ u ∈ s.users, toLower u.username = toLower username →
          u.id = current_user_id) →
        is_username_available_for_user username current_user_id s = true)
      ∧ ((∀ u ∈ s.users, u.id = current_user_id →
            toLower u.username ≠ toLower username) →
        is_username_available_for_user username current_user_id s
          = is_username_available username s) := by
  intro username current_user_id s
  constructor
  · intro _ huniq
    simp only [is_username_available_for_user, beq_iff_eq,
      List.countP_eq_zero]
    intro u hu
    simp only [Bool.and_eq_true, beq_iff_eq, bne_iff_ne, not_and, ne_eq,
      not_not]
    intro hmatch
    exact huniq u hu hmatch
  · intro hother
    have hcount : s.users.countP
        (fun u => toLower u.username == toLower username
          && u.id != current_user_id)
        = s.users.countP
            (fun u => toLower u.username == toLower username) := by
      apply List.countP_congr
      intro u hu
      simp only [Bool.and_eq_true, beq_iff_eq, bne_iff_ne]
      constructor
      · intro h; exact h.1
      · intro h
        refine ⟨h, fun heq => ?_⟩
        exact hother u hu heq h
    rw [is_username_available_for_user, is_username_available, hcount]

/-- Witness for C7: user "a" owns "alice" in the demo store, so the
self-excluding check accepts it for "a". -/
theorem username_available_for_user_spec_witness :
    is_username_available_for_user "alice" "a" demoStore = true :=
  (username_available_for_user_spec "alice" "a" demoStore).1
    ⟨userA, by decide, rfl, rfl⟩ (by decide)

/-- C3: on an existing user, `update_user` returns a record keeping the
pre-call `id` and `email` while `name`/`username`/`bio`/`avatar` become
the supplied arguments; the stored node agrees (a fresh lookup returns
the same record), and the store's (id, email) pairs are untouched, so no
user's email is modified. -/
theorem update_user_existing_spec :
    ∀ (user_id name username bio avatar : String) (s : Store)
      (p : UserProfile),
      get_user_by_id user_id s = some p →
      ∃ q : UserProfile,
        (update_user user_id name username bio avatar s).1 = Except.ok q
        ∧ q.id = p.id ∧ q.email = p.email
        ∧ q.name = name ∧ q.username = username ∧ q.bio = bio
        ∧ q.avatar = avatar
        ∧ get_user_by_id user_id
            (update_user user_id name username bio avatar s).2 = some q
        ∧ (update_user user_id name username bio avatar s).2.users.map
            (fun u => (u.id, u.email))
          = s.users.map (fun u => (u.id, u.email)) := by
  intro user_id name username bio avatar s p hp
  have hfind : s.users.find? (fun u => u.id == user_id) = some p := hp
  have hpred : ((fun u : UserProfile => u.id == user_id) ∘
      updateFields user_id name username bio avatar)
      = fun u : UserProfile => u.id == user_id :=
    funext fun u => by simp [Function.comp, updateFields_id]
  have hfind' : (s.users.map
      (updateFields user_id name username bio avatar)).find?
      (fun u => u.id == user_id)
      = some (updateFields user_id name username bio avatar p) := by
    rw [List.find?_map, hpred, hfind]; rfl
  have hpid := List.find?_some hfind
  have hfp : updateFields user_id name username bio avatar p
      = { p with
          name := name, username := username, bio := bio,
          avatar := avatar } := by
    rw [updateFields, if_pos hpid]
  have h2 := update_user_snd user_id name username bio avatar s
  refine ⟨updateFields user_id name username bio avatar p,
    ?_, ?_, ?_, ?_, ?_, ?_, ?_, ?_, ?_⟩
  · rw [update_user]
    simp [hfind']
  · rw [hfp]
  · rw [hfp]
  · rw [hfp]
  · rw [hfp]
  · rw [hfp]
  · rw [hfp]
  · rw [h2, get_user_by_id]
    exact hfind'
  · rw [h2]
    simp only [List.map_map]
    apply List.map_congr_left
    intro u _
    simp [Function.comp, updateFields_id, updateFields_email]

/-- Witness for C3: updating the existing user "c" of the demo store. -/
theorem update_user_existing_spec_witness :
    ∃ q : UserProfile,
      (update_user "c" "Carla" "carla2" "hello" "avatar_3" demoStore).1
        = Except.ok q
      ∧ q.id = userC.id ∧ q.email = userC.email
      ∧ q.name = "Carla" ∧ q.username = "carla2" ∧ q.bio = "hello"
      ∧ q.avatar = "avatar_3"
      ∧ get_user_by_id "c"
          (update_user "c" "Carla" "carla2" "hello" "avatar_3" demoStore).2
          = some q
      ∧ (update_user "c" "Carla" "carla2" "hello" "avatar_3" demoStore).2.users.map
          (fun u => (u.id, u.email))
        = demoStore.users.map (fun u => (u.id, u.email)) :=
  update_user_existing_spec "c" "Carla" "carla2" "hello" "avatar_3"
    demoStore userC (by decide)

theorem follow_user_users (user_id target_id : String) (s : Store) :
    (follow_user user_id target_id s).users = s.users := by
  rw [follow_user]
  split
  · split <;> rfl
  · rfl

theorem follow_user_count (user_id target_id : String) (s : Store)
    (h1 : userExists user_id s = true) (h2 : userExists target_id s = true)
    (hle : List.count (user_id, target_id) s.follows ≤ 1) :
    List.count (user_id, target_id)
      (follow_user user_id target_id s).follows = 1 := by
  rw [follow_user, if_pos (by rw [h1, h2]; rfl)]
  by_cases hc : s.follows.contains (user_id, target_id)
  · rw [if_pos hc]
    have hmem : (user_id, target_id) ∈ s.follows :=
      (contains_true_iff _ _).mp hc
    have := List.count_pos_iff.mpr hmem
    omega
  · rw [if_neg hc]
    have hnot : (user_id, target_id) ∉ s.follows := by
      intro hmem; exact hc ((contains_true_iff _ _).mpr hmem)
    simp [List.count_append, List.count_eq_zero.mpr hnot]

/-- C4: for existing users a and b (with at most one pre-existing a→b
edge, the state merge-maintained stores guarantee), after `follow_user`
the target is in `get_following` and exactly one FOLLOWS edge a→b exists;
a repeated `follow_user` still leaves exactly one edge; after a
subsequent `unfollow_user` the target is gone from `get_following`; and
`unfollow_user` with no such edge returns the store unchanged (it is a
total function, so it cannot fail). -/
theorem follow_unfollow_spec :
    ∀ (s : Store) (a b : UserProfile),
      a ∈ s.users → b ∈ s.users →
      List.count (a.id, b.id) s.follows ≤ 1 →
      (b ∈ get_following a.id (follow_user a.id b.id s)
      ∧ List.count (a.id, b.id) (follow_user a.id b.id s).follows = 1
      ∧ List.count (a.id, b.id)
          (follow_user a.id b.id (follow_user a.id b.id s)).follows = 1
      ∧ b ∉ get_following a.id
          (unfollow_user a.id b.id (follow_user a.id b.id s))
      ∧ ∀ t : Store, (a.id, b.id) ∉ t.follows →
          unfollow_user a.id b.id t = t) := by
  intro s a b ha hb hle
  have hea : userExists a.id s = true := by
    rw [userExists, List.any_eq_true]
    exact ⟨a, ha, by simp⟩
  have heb : userExists b.id s = true := by
    rw [userExists, List.any_eq_true]
    exact ⟨b, hb, by simp⟩
  have hcount1 := follow_user_count a.id b.id s hea heb hle
  have husers1 := follow_user_users a.id b.id s
  have hmem1 : (a.id, b.id) ∈ (follow_user a.id b.id s).follows :=
    List.count_pos_iff.mp (by omega)
  have hea1 : userExists a.id (follow_user a.id b.id s) = true := by
    rw [userExists, husers1]; exact hea
  have heb1 : userExists b.id (follow_user a.id b.id s) = true := by
    rw [userExists, husers1]; exact heb
  refine ⟨?_, hcount1, ?_, ?_, ?_⟩
  · rw [get_following, List.mem_filter, husers1]
    exact ⟨hb, (contains_true_iff _ _).mpr hmem1⟩
  · exact follow_user_count a.id b.id (follow_user a.id b.id s)
      hea1 heb1 (by omega)
  · intro hbmem
    rw [get_following, List.mem_filter] at hbmem
    have hc := (contains_true_iff _ _).mp hbmem.2
    rw [unfollow_user, if_pos (by rw [hea1, heb1]; rfl)] at hc
    rw [List.mem_filter] at hc
    simp at hc
  · intro t hnot
    rw [unfollow_user]
    split
    · have hself : t.follows.filter (fun e => e != (a.id, b.id))
          = t.follows := by
        rw [List.filter_eq_self]
        intro e he
        rw [bne_iff_ne]
        intro heq
        exact hnot (heq ▸ he)
      rw [hself]
    · rfl

/-- Witness for C4: the follow/unfollow round trip between the demo
users "a" and "b", which start with no a→b edge. -/
theorem follow_unfollow_spec_witness :
    userB ∈ get_following "a" (follow_user "a" "b" demoStore)
    ∧ List.count ("a", "b") (follow_user "a" "b" demoStore).follows = 1
    ∧ List.count ("a", "b")
        (follow_user "a" "b" (follow_user "a" "b" demoStore)).follows = 1
    ∧ userB ∉ get_following "a"
        (unfollow_user "a" "b" (follow_user "a" "b" demoStore))
    ∧ ∀ t : Store, ("a", "b") ∉ t.follows → unfollow_user "a" "b" t = t :=
  follow_unfollow_spec demoStore userA userB (by decide) (by decide)
    (by decide)

/-- C8: `get_feed_posts u` returns exactly the posts authored (via a
POSTED edge) by users in `get_following u`, each item being the post's
fields together with the minimal author projection {id, name, username};
and the returned list is non-increasing in `createdAt` from first to
last. -/
theorem get_feed_posts_spec :
    ∀ (user_id : String) (s : Store),
      (∀ item : FeedPost,
        item ∈ get_feed_posts user_id s
          ↔ ∃ f ∈ get_following user_id s, ∃ p ∈ s.posts,
              (f.id, p.id) ∈ s.posted ∧ item = feedItem p f)
      ∧ (get_feed_posts user_id s).Pairwise
          (fun x y => y.createdAt ≤ x.createdAt) := by
  intro user_id s
  constructor
  · intro item
    rw [get_feed_posts, List.mem_map]
    constructor
    · rintro ⟨r, hr, rfl⟩
      have hrows : r ∈ feedRows user_id s :=
        (List.perm_insertionSort createdAtDesc _).mem_iff.mp hr
      rw [feedRows, List.mem_flatMap] at hrows
      rcases hrows with ⟨f, hf, hpr⟩
      rw [List.mem_map] at hpr
      rcases hpr with ⟨p, hp, rfl⟩
      rw [List.mem_filter] at hp
      exact ⟨f, hf, p, hp.1, (contains_true_iff _ _).mp hp.2, rfl⟩
    · rintro ⟨f, hf, p, hp, hposted, rfl⟩
      refine ⟨(p, f), ?_, rfl⟩
      rw [(List.perm_insertionSort createdAtDesc _).mem_iff, feedRows,
        List.mem_flatMap]
      exact ⟨f, hf, List.mem_map.mpr ⟨p, List.mem_filter.mpr
        ⟨hp, (contains_true_iff _ _).mpr hposted⟩, rfl⟩⟩
  · rw [get_feed_posts]
    exact List.Pairwise.map _ (fun x y hxy => hxy)
      (List.sorted_insertionSort createdAtDesc _)
